import Mathlib

/-!
# Verification of the Image-to-LEGO generation pipeline

Shallow embedding of the repository's core logic:

* `src/App.tsx` (the file also carries `services/geminiService.ts` inline):
  the two-stage blueprint generation pipeline (`generateLegoBlueprint`,
  `resizeLegoBlueprint`), the JSON repair routine `cleanJsonString`, the
  fallback blueprint, and the `handleConvertClick` enhancement step.
* `src/components/LegoResult.tsx`: the multi-version build store
  (`blueprints`, `currentIndex`, `handleResize`).
* `src/unnamed/part_000` (`types.ts`): the data model.
* `services/bricklinkService.ts` is not among the provided sources; its
  `validateAndPriceParts` is modelled from the spec (section 4.1).

JavaScript runtime pieces the source relies on (`JSON.parse`,
`String.prototype.indexOf` / `lastIndexOf` / `substring`, truthiness,
`Array.isArray`) are embedded with their standard semantics.  JSON numbers
are modelled as exact rationals.
-/

namespace ImageToLego

/-! ## JSON values (the result type of `JSON.parse`) -/

/-- A JSON value, as produced by `JSON.parse`.  Numbers are modelled as exact
rationals. Object fields are kept in textual order; duplicate keys are
resolved by `objGet` taking the last occurrence, matching JavaScript. -/
inductive Json where
  | null : Json
  | bool (b : Bool) : Json
  | num (q : ℚ) : Json
  | str (s : String) : Json
  | arr (elems : List Json) : Json
  | obj (fields : List (String × Json)) : Json

/-! ## A model of `JSON.parse`

A strict JSON parser over the character list of the input, with explicit
fuel for termination.  It follows the JSON grammar: optional whitespace,
`null` / `true` / `false`, numbers (integer part without leading zeros,
optional fraction and exponent), strings with the standard escapes, arrays
and objects.  Trailing non-whitespace makes the whole parse fail, as in
`JSON.parse`. -/

def isWsChar (c : Char) : Bool :=
  c = ' ' || c = '\t' || c = '\n' || c = '\r'

def skipWs : List Char → List Char
  | [] => []
  | c :: cs => if isWsChar c then skipWs cs else c :: cs

def isDigitChar (c : Char) : Bool :=
  '0' ≤ c && c ≤ '9'

def digitsToNat (ds : List Char) : Nat :=
  ds.foldl (fun n c => n * 10 + (c.toNat - 48)) 0

def hexVal (c : Char) : Option Nat :=
  if '0' ≤ c && c ≤ '9' then some (c.toNat - 48)
  else if 'a' ≤ c && c ≤ 'f' then some (c.toNat - 97 + 10)
  else if 'A' ≤ c && c ≤ 'F' then some (c.toNat - 65 + 10)
  else none

/-- Parse the exponent suffix (if present) and apply the sign recorded for
the mantissa. Returns the finished number and the remaining input. -/
def parseExpSuffix (neg : Bool) (q : ℚ) (cs : List Char) : Option (ℚ × List Char) :=
  let signed : ℚ → ℚ := fun v => if neg then -v else v
  match cs with
  | c :: cs1 =>
    if c = 'e' || c = 'E' then
      let (negE, cs2) : Bool × List Char :=
        match cs1 with
        | '+' :: t => (false, t)
        | '-' :: t => (true, t)
        | _ => (false, cs1)
      let eDigits := cs2.takeWhile isDigitChar
      if eDigits = [] then none
      else
        let e := digitsToNat eDigits
        let v := if negE then q / (10 : ℚ) ^ e else q * (10 : ℚ) ^ e
        some (signed v, cs2.drop eDigits.length)
    else some (signed q, c :: cs1)
  | [] => some (signed q, [])

/-- Parse a JSON number at the head of the input. -/
def parseNumber (cs : List Char) : Option (ℚ × List Char) :=
  let (neg, cs1) : Bool × List Char :=
    match cs with
    | '-' :: t => (true, t)
    | _ => (false, cs)
  let intDigits := cs1.takeWhile isDigitChar
  if intDigits = [] then none
  else if intDigits.length > 1 && intDigits.head? = some '0' then none
  else
    let cs2 := cs1.drop intDigits.length
    let intPart : ℚ := (digitsToNat intDigits : ℚ)
    match cs2 with
    | '.' :: cs3 =>
      let fracDigits := cs3.takeWhile isDigitChar
      if fracDigits = [] then none
      else
        let q := intPart + (digitsToNat fracDigits : ℚ) / (10 : ℚ) ^ fracDigits.length
        parseExpSuffix neg q (cs3.drop fracDigits.length)
    | _ => parseExpSuffix neg intPart cs2

/-- Parse the body of a JSON string (the opening quote already consumed).
Returns the decoded characters and the input after the closing quote. -/
def parseStringBody : Nat → List Char → Option (List Char × List Char)
  | 0, _ => none
  | _ + 1, [] => none
  | fuel + 1, c :: cs =>
    if c = '"' then some ([], cs)
    else if c = '\\' then
      match cs with
      | [] => none
      | e :: cs2 =>
        let esc : Option (Char × List Char) :=
          if e = '"' then some ('"', cs2)
          else if e = '\\' then some ('\\', cs2)
          else if e = '/' then some ('/', cs2)
          else if e = 'b' then some ('\x08', cs2)
          else if e = 'f' then some ('\x0c', cs2)
          else if e = 'n' then some ('\n', cs2)
          else if e = 'r' then some ('\r', cs2)
          else if e = 't' then some ('\t', cs2)
          else if e = 'u' then
            match cs2 with
            | h1 :: h2 :: h3 :: h4 :: cs3 =>
              match hexVal h1, hexVal h2, hexVal h3, hexVal h4 with
              | some v1, some v2, some v3, some v4 =>
                some (Char.ofNat (((v1 * 16 + v2) * 16 + v3) * 16 + v4), cs3)
              | _, _, _, _ => none
            | _ => none
          else none
        match esc with
        | some (ch, rest) =>
          match parseStringBody fuel rest with
          | some (s, r) => some (ch :: s, r)
          | none => none
        | none => none
    else if c.toNat < 32 then none
    else
      match parseStringBody fuel cs with
      | some (s, r) => some (c :: s, r)
      | none => none

mutual

/-- Parse one JSON value (after skipping leading whitespace). -/
def parseValue : Nat → List Char → Option (Json × List Char)
  | 0, _ => none
  | fuel + 1, cs0 =>
    match skipWs cs0 with
    | [] => none
    | '{' :: rest =>
      match skipWs rest with
      | '}' :: rest2 => some (.obj [], rest2)
      | rest2 => parseMembers fuel rest2 []
    | '[' :: rest =>
      match skipWs rest with
      | ']' :: rest2 => some (.arr [], rest2)
      | rest2 => parseElems fuel rest2 []
    | '"' :: rest =>
      match parseStringBody (rest.length + 1) rest with
      | some (s, r) => some (.str (String.mk s), r)
      | none => none
    | 't' :: 'r' :: 'u' :: 'e' :: rest => some (.bool true, rest)
    | 'f' :: 'a' :: 'l' :: 's' :: 'e' :: rest => some (.bool false, rest)
    | 'n' :: 'u' :: 'l' :: 'l' :: rest => some (.null, rest)
    | cs =>
      match parseNumber cs with
      | some (q, r) => some (.num q, r)
      | none => none

/-- Parse the members of a JSON object (after the opening brace, with at
least one member expected). -/
def parseMembers : Nat → List Char → List (String × Json) → Option (Json × List Char)
  | 0, _, _ => none
  | fuel + 1, cs, acc =>
    match skipWs cs with
    | '"' :: rest =>
      match parseStringBody (rest.length + 1) rest with
      | none => none
      | some (key, rest2) =>
        match skipWs rest2 with
        | ':' :: rest3 =>
          match parseValue fuel rest3 with
          | none => none
          | some (v, rest4) =>
            let acc2 := acc ++ [(String.mk key, v)]
            match skipWs rest4 with
            | ',' :: rest5 => parseMembers fuel rest5 acc2
            | '}' :: rest5 => some (.obj acc2, rest5)
            | _ => none
        | _ => none
    | _ => none

/-- Parse the elements of a JSON array (after the opening bracket, with at
least one element expected). -/
def parseElems : Nat → List Char → List Json → Option (Json × List Char)
  | 0, _, _ => none
  | fuel + 1, cs, acc =>
    match parseValue fuel cs with
    | none => none
    | some (v, rest) =>
      let acc2 := acc ++ [v]
      match skipWs rest with
      | ',' :: rest2 => parseElems fuel rest2 acc2
      | ']' :: rest2 => some (.arr acc2, rest2)
      | _ => none

end

/-- Model of JavaScript's `JSON.parse`: `none` exactly when `JSON.parse`
would throw a `SyntaxError`.  The fuel `2 * length + 2` dominates the
recursion depth, which consumes at least one character every two steps. -/
def jsonParse (s : String) : Option Json :=
  match parseValue (2 * s.length + 2) s.toList with
  | some (j, rest) => if skipWs rest = [] then some j else none
  | none => none

/-! ## JavaScript object / truthiness helpers -/

/-- Field lookup in a JSON object's field list; the last occurrence wins,
as for duplicate keys in JavaScript object literals from `JSON.parse`. -/
def objGet (fields : List (String × Json)) (name : String) : Option Json :=
  match fields.filter (fun f => f.1 = name) with
  | [] => none
  | fs => fs.getLast?.map (fun f => f.2)

/-- JavaScript member access `j.name` on a parsed JSON value: `none` models
`undefined` (and also the `TypeError` thrown on `null`, which the source
catches into the same fallback path as a falsy check). -/
def jsGetField : Json → String → Option Json
  | .obj fs, name => objGet fs name
  | _, _ => none

/-- JavaScript truthiness of a parsed JSON value (`NaN` and `undefined`
cannot be produced by `JSON.parse`). -/
def jsTruthy : Json → Bool
  | .null => false
  | .bool b => b
  | .num q => !(q = 0)
  | .str s => !(s = "")
  | .arr _ => true
  | .obj _ => true

/-- Truthiness of an optional field (`none` models `undefined`, falsy). -/
def optTruthy : Option Json → Bool
  | none => false
  | some j => jsTruthy j

/-- JavaScript's `Array.isArray` applied to an optional field. -/
def jsIsArray : Option Json → Bool
  | some (.arr _) => true
  | _ => false

/-! ## Data model (from `types.ts`, `src/unnamed/part_000`) -/

/-- `LegoBuildSize` from `types.ts`: the string union `Micro | Medium | Large`. -/
inductive LegoBuildSize where
  | Micro : LegoBuildSize
  | Medium : LegoBuildSize
  | Large : LegoBuildSize
deriving DecidableEq

/-- The string a `LegoBuildSize` value interpolates to in a JavaScript
template literal (the union members are these strings). -/
def sizeLabel : LegoBuildSize → String
  | .Micro => "Micro"
  | .Medium => "Medium"
  | .Large => "Large"

/-- `LegoPart` from `types.ts`.  `number` fields are modelled as exact
rationals. -/
structure LegoPart where
  pieceId : String
  pieceName : String
  color : String
  quantity : ℚ
  estimatedPrice : ℚ
deriving DecidableEq

/-- `Availability` from `types.ts`. -/
inductive Availability where
  | Available : Availability
  | Rare : Availability
  | CheckAlternatives : Availability
deriving DecidableEq

/-- `ValidatedLegoPart` from `types.ts` (extends `LegoPart`). -/
structure ValidatedLegoPart where
  pieceId : String
  pieceName : String
  color : String
  quantity : ℚ
  estimatedPrice : ℚ
  realPrice : ℚ
  availability : Availability
  brickLinkUrl : String
  isAlternative : Option Bool
  notes : Option String
deriving DecidableEq

/-- `LegoBlueprint` from `types.ts`, as it exists at runtime when produced
by the pipeline.  The pipeline builds the success value by spreading the
untyped `JSON.parse` result (`{...parsedJson, legoImageData, size}`), so
every field that the spread fills is modelled as the raw `Json` value found
in the payload (`none` = absent, i.e. `undefined`); only `legoImageData`
and `size` are set by the pipeline itself and are typed.  `validatedParts`
and `realTotalCost` are attached by the caller after validation
(`validatedParts` is kept typed; `realTotalCost` carries raw `Json` so
that a `realTotalCost` field echoed inside the Stage-B payload — which the
spread preserves — is representable). -/
structure LegoBlueprint where
  title : Option Json
  partsList : Option Json
  totalPieces : Option Json
  estimatedCost : Option Json
  difficultyLevel : Option Json
  buildTime : Option Json
  description : Option Json
  legoImageData : String
  size : LegoBuildSize
  validatedParts : Option (List ValidatedLegoPart)
  realTotalCost : Option Json

/-! ## The generation pipeline (`services/geminiService.ts`, inlined in
`src/App.tsx` lines 244-482) -/

/-- The canned parts list of the fallback blueprint (`fallbackBlueprint`
in the source), encoded as the JSON value its object literal denotes. -/
def fallbackPartsJson : Json :=
  .arr
    [ .obj
        [ (("pieceId"), .str ("3001")), (("pieceName"), .str ("2x4 Brick")),
          (("color"), .str ("Red")), (("quantity"), .num 10),
          (("estimatedPrice"), .num (12 / 100)) ],
      .obj
        [ (("pieceId"), .str ("3002")), (("pieceName"), .str ("2x3 Brick")),
          (("color"), .str ("Blue")), (("quantity"), .num 8),
          (("estimatedPrice"), .num (10 / 100)) ],
      .obj
        [ (("pieceId"), .str ("3003")), (("pieceName"), .str ("2x2 Brick")),
          (("color"), .str ("Yellow")), (("quantity"), .num 15),
          (("estimatedPrice"), .num (8 / 100)) ] ]

/-- `{ ...fallbackBlueprint, legoImageData, size }`: the fixed fallback
blueprint combined with the pipeline's own image and size (the
`fallbackResult` local in both pipeline functions). -/
def mkFallback (legoImageData : String) (size : LegoBuildSize) : LegoBlueprint :=
  { title := some (.str ("My Custom Brick Model"))
    partsList := some fallbackPartsJson
    totalPieces := some (.num 33)
    estimatedCost := some (.num (35 / 10))
    difficultyLevel := some (.str ("Intermediate"))
    buildTime := some (.str ("30-45 minutes"))
    description := some (.str ("A creative brick model. The AI was unable to provide a detailed parts list, so this is an example breakdown."))
    legoImageData := legoImageData
    size := size
    validatedParts := none
    realTotalCost := none }

/-- `cleanJsonString` on the character list: `indexOf('{')`,
`lastIndexOf('}')` (both `none` for JavaScript's `-1`), then
`str.substring(firstBrace, lastBrace + 1)`; `['{', '}']` (the string
`"{}"`) when no well-formed bracket pair exists. -/
def cleanJsonChars (cs : List Char) : List Char :=
  match cs.findIdx? (fun c => c = '{'), cs.reverse.findIdx? (fun c => c = '}') with
  | some firstBrace, some revLast =>
    let lastBrace := cs.length - 1 - revLast
    if lastBrace < firstBrace then [ '{', '}' ]
    else (cs.take (lastBrace + 1)).drop firstBrace
  | _, _ => [ '{', '}' ]

/-- `cleanJsonString` from the source (`src/App.tsx` lines 308-322). -/
def cleanJsonString (str : String) : String :=
  String.mk (cleanJsonChars str.toList)

/-- The condition of the basic-validation `throw` in both pipeline
functions: `!parsedJson.partsList || !Array.isArray(parsedJson.partsList)
|| !parsedJson.title`. -/
def stageBRejects (parsedJson : Json) : Bool :=
  !(optTruthy (jsGetField parsedJson ("partsList"))) ||
  !(jsIsArray (jsGetField parsedJson ("partsList"))) ||
  !(optTruthy (jsGetField parsedJson ("title")))

/-- The success value `{ ...parsedJson, legoImageData, size }`: every
declared blueprint field is taken from the parsed payload, then
`legoImageData` and `size` are overridden with the pipeline's own values.
(A `validatedParts` field echoed in the payload is not representable in
the typed `validatedParts` slot and is dropped; no claim depends on it.) -/
def mkSuccessBlueprint (parsedJson : Json) (legoImageData : String)
    (size : LegoBuildSize) : LegoBlueprint :=
  { title := jsGetField parsedJson ("title")
    partsList := jsGetField parsedJson ("partsList")
    totalPieces := jsGetField parsedJson ("totalPieces")
    estimatedCost := jsGetField parsedJson ("estimatedCost")
    difficultyLevel := jsGetField parsedJson ("difficultyLevel")
    buildTime := jsGetField parsedJson ("buildTime")
    description := jsGetField parsedJson ("description")
    legoImageData := legoImageData
    size := size
    validatedParts := none
    realTotalCost := jsGetField parsedJson ("realTotalCost") }

/-- The `try { cleanJsonString; JSON.parse; basic validation; return spread }
catch { return fallbackResult }` block shared by both pipeline functions:
a parse failure or the validation `throw` lands in `catch`, which returns
the fallback. -/
def processStageBText (legoImageData : String) (size : LegoBuildSize)
    (text : String) : LegoBlueprint :=
  match jsonParse (cleanJsonString text) with
  | none => mkFallback legoImageData size
  | some parsedJson =>
    if stageBRejects parsedJson then mkFallback legoImageData size
    else mkSuccessBlueprint parsedJson legoImageData size

/-- An inline data payload of a generative-service response part. -/
structure InlineData where
  data : String
  mimeType : String
deriving DecidableEq

/-- One part of a generative-service response: optionally inline data
and/or text (`none` = the property is absent / `undefined`). -/
structure RespPart where
  inlineData : Option InlineData
  text : Option String
deriving DecidableEq

/-- A generative-service response, flattened to the part list the source
reads through `response.candidates?.[0]?.content?.parts ?? []` (`parts`
is that list; a response with no candidate/content/parts is `⟨[]⟩`). -/
structure GenResponse where
  parts : List RespPart
deriving DecidableEq

/-- `imageGenParts.find(part => part.inlineData)`: the first part whose
`inlineData` is present (objects are always truthy). -/
def findImagePart (parts : List RespPart) : Option RespPart :=
  parts.find? (fun part => part.inlineData.isSome)

/-- `parts?.find(part => part.text)`: the first part whose `text` is
truthy (present and non-empty — `""` is falsy in JavaScript). -/
def findTextPart (parts : List RespPart) : Option RespPart :=
  parts.find? (fun part => match part.text with
    | none => false
    | some t => !(t = ""))

/-- `data:{mime};base64,{data}`: the data URI built from the Stage-A
inline image payload. -/
def mkImageData (idata : InlineData) : String :=
  ("data:") ++ idata.mimeType ++ (";base64,") ++ idata.data

/-- `generateLegoBlueprint` (`src/App.tsx` lines 324-403).  The service
calls are external I/O, so the two responses are inputs of the model; the
request payloads (prompts, split image data) do not influence the returned
value and are not modelled.  The first component is the trace of progress
messages sent to `setProgress`, the second the returned promise outcome
(`Except.error` = the function throws). -/
def generateLegoBlueprint (apiKeySet : Bool) (base64Image mimeType : String)
    (initialSize : LegoBuildSize)
    (imageGenResponse partsListResponse : GenResponse) :
    List String × Except String LegoBlueprint :=
  if !apiKeySet then
    ([], .error ("API_KEY environment variable not set."))
  else
    let progress1 := ("Generating ") ++ sizeLabel initialSize ++ (" LEGO version...")
    match findImagePart imageGenResponse.parts with
    | none =>
      ([progress1], .error ("AI failed to generate a LEGO image. Please try a different image."))
    | some imagePart =>
      match imagePart.inlineData with
      | none =>
        ([progress1], .error ("AI failed to generate a LEGO image. Please try a different image."))
      | some idata =>
        let legoImageData := mkImageData idata
        let progress2 := ("Analyzing LEGO image for parts...")
        let fallbackResult := mkFallback legoImageData initialSize
        let result : LegoBlueprint :=
          match findTextPart partsListResponse.parts with
          | none => fallbackResult
          | some textPart =>
            match textPart.text with
            | none => fallbackResult
            | some t =>
              if t = ("") then fallbackResult
              else processStageBText legoImageData initialSize t
        ([progress1, progress2], .ok result)

/-- `resizeLegoBlueprint` (`src/App.tsx` lines 405-482).  Identical to
`generateLegoBlueprint` except for the wording of the progress messages
and of the Stage-A error message. -/
def resizeLegoBlueprint (apiKeySet : Bool) (originalBase64Image originalMimeType : String)
    (targetSize : LegoBuildSize)
    (imageGenResponse partsListResponse : GenResponse) :
    List String × Except String LegoBlueprint :=
  if !apiKeySet then
    ([], .error ("API_KEY environment variable not set."))
  else
    let progress1 := ("Generating ") ++ sizeLabel targetSize ++ (" version...")
    match findImagePart imageGenResponse.parts with
    | none =>
      ([progress1], .error (("AI failed to generate the ") ++ sizeLabel targetSize ++ (" LEGO image.")))
    | some imagePart =>
      match imagePart.inlineData with
      | none =>
        ([progress1], .error (("AI failed to generate the ") ++ sizeLabel targetSize ++ (" LEGO image.")))
      | some idata =>
        let legoImageData := mkImageData idata
        let progress2 := ("Analyzing new image for parts...")
        let fallbackResult := mkFallback legoImageData targetSize
        let result : LegoBlueprint :=
          match findTextPart partsListResponse.parts with
          | none => fallbackResult
          | some textPart =>
            match textPart.text with
            | none => fallbackResult
            | some t =>
              if t = ("") then fallbackResult
              else processStageBText legoImageData targetSize t
        ([progress1, progress2], .ok result)

/-- The textual Stage-B payload the pipeline acts on: the text of the
first part with truthy text, `none` when `!textPart || !textPart.text`. -/
def stageBTextPayload (r : GenResponse) : Option String :=
  match findTextPart r.parts with
  | none => none
  | some textPart =>
    match textPart.text with
    | none => none
    | some t => if t = ("") then none else some t

/-- What Stage B produces once Stage A has yielded image data: the
fallback when there is no textual payload, otherwise the repair / parse /
validate / spread processing of the text. -/
def stageBOutcome (r : GenResponse) (legoImageData : String)
    (size : LegoBuildSize) : LegoBlueprint :=
  match stageBTextPayload r with
  | none => mkFallback legoImageData size
  | some t => processStageBText legoImageData size t

/-! ## Parts validation engine -/

/-- Modelled from the spec: the per-part resolution outcome of the
pricing/availability authority consulted by `validateAndPriceParts`
(`src/services/bricklinkService.ts` is not among the provided sources;
only its callers are). Spec section 4.1 lists the outcomes: exact match in
stock, exact match with low stock, substitute found, no match, and a
per-lookup authority failure. -/
inductive LookupOutcome where
  | exactInStock (price : ℚ) (url : String) : LookupOutcome
  | exactLowStock (price : ℚ) (url : String) (note : String) : LookupOutcome
  | substituteFound (price : ℚ) (url : String) (note : String) : LookupOutcome
  | noMatch : LookupOutcome
  | authorityError : LookupOutcome

/-- Modelled from the spec (section 4.1): validation of one part, applying
the resolution policy to the authority's outcome for that part.
`quantity` and `pieceName` (and the other input fields) pass through
unchanged; an authority failure degrades to the no-match policy. -/
def validateOnePart (lookup : LegoPart → LookupOutcome) (p : LegoPart) :
    ValidatedLegoPart :=
  let base : ValidatedLegoPart :=
    { pieceId := p.pieceId, pieceName := p.pieceName, color := p.color,
      quantity := p.quantity, estimatedPrice := p.estimatedPrice,
      realPrice := p.estimatedPrice, availability := .CheckAlternatives,
      brickLinkUrl := "", isAlternative := none,
      notes := some ("No authoritative match was found; the price shown is the AI estimate.") }
  match lookup p with
  | .exactInStock price url =>
    { base with realPrice := price, availability := .Available,
                brickLinkUrl := url, notes := none }
  | .exactLowStock price url note =>
    { base with realPrice := price, availability := .Rare,
                brickLinkUrl := url, notes := some note }
  | .substituteFound price url note =>
    { base with realPrice := price, availability := .CheckAlternatives,
                brickLinkUrl := url, isAlternative := some true,
                notes := some note }
  | .noMatch => base
  | .authorityError => base

/-- Modelled from the spec (section 4.1): `validateAndPriceParts`, one
lookup per input part, input order preserved. -/
def validateAndPriceParts (lookup : LegoPart → LookupOutcome)
    (parts : List LegoPart) : List ValidatedLegoPart :=
  parts.map (validateOnePart lookup)

/-! ## Blueprint enhancement and the multi-version build store
(`handleConvertClick` in `src/App.tsx`, `handleResize` in
`src/components/LegoResult.tsx`) -/

/-- `validatedParts.reduce((sum, part) => sum + part.realPrice *
part.quantity, 0)`. -/
def sumRealCost (validatedParts : List ValidatedLegoPart) : ℚ :=
  validatedParts.foldl (fun sum part => sum + part.realPrice * part.quantity) 0

/-- `{ ...blueprint, validatedParts, realTotalCost }`: the enhancement
step both `handleConvertClick` and `handleResize` perform after
validation. -/
def enhanceBlueprint (blueprint : LegoBlueprint)
    (validatedParts : List ValidatedLegoPart) : LegoBlueprint :=
  { blueprint with
    validatedParts := some validatedParts
    realTotalCost := some (.num (sumRealCost validatedParts)) }

/-- The `LegoResult` component state: the build store (`blueprints`), the
current selection (`currentIndex`) and the local resize error. -/
structure SessionState where
  blueprints : List LegoBlueprint
  currentIndex : Nat
  resizeError : Option String

/-- `blueprints.some(bp => bp.size === size)`: the "already generated"
check that disables the resize button for that size. -/
def isGenerated (s : SessionState) (size : LegoBuildSize) : Bool :=
  s.blueprints.any (fun bp => bp.size = size)

/-- `blueprints[currentIndex]` (may be `undefined` when out of range). -/
def currentBlueprint (s : SessionState) : Option LegoBlueprint :=
  s.blueprints[s.currentIndex]?

/-- The state update `handleResize` performs once the pipeline call has
settled: on success it validates, enhances, appends
(`setBlueprints(prev => [...prev, enhancedBlueprint])`) and selects the
new entry (`setCurrentIndex(blueprints.length)`, the pre-append length,
stable because at most one resize is in flight); on failure (`catch`) it
only records the local error message. -/
def applyResizeOutcome (s : SessionState)
    (outcome : Except String LegoBlueprint)
    (validatedParts : List ValidatedLegoPart) : SessionState :=
  match outcome with
  | .error e => { s with resizeError := some e }
  | .ok newBlueprint =>
    { blueprints := s.blueprints ++ [enhanceBlueprint newBlueprint validatedParts]
      currentIndex := s.blueprints.length
      resizeError := none }

/-- The session states of the `LegoResult` component reachable through the
UI: it mounts with a single initial blueprint; a resize can only be
launched for a size whose button is enabled (not already generated), and
its outcome is a `resizeLegoBlueprint` result; the visualizer can select
any valid index. -/
inductive Reachable : SessionState → Prop
  | init (bp : LegoBlueprint) :
      Reachable { blueprints := [bp], currentIndex := 0, resizeError := none }
  | resize (s : SessionState) (targetSize : LegoBuildSize) (apiKeySet : Bool)
      (b64 mime : String) (r1 r2 : GenResponse)
      (validatedParts : List ValidatedLegoPart)
      (h : Reachable s)
      (hguard : isGenerated s targetSize = false) :
      Reachable (applyResizeOutcome s
        (resizeLegoBlueprint apiKeySet b64 mime targetSize r1 r2).2 validatedParts)
  | select (s : SessionState) (i : Nat) (h : Reachable s)
      (hi : i < s.blueprints.length) :
      Reachable { s with currentIndex := i }

/-! ## Helper lemmas -/

/-- `findIdx?` skips a prefix on which the predicate is false. -/
lemma findIdx_skip {α : Type} (p : α → Bool) (l1 l2 : List α)
    (h : ∀ a ∈ l1, p a = false) (i : Nat) :
    List.findIdx? p (l1 ++ l2) i = List.findIdx? p l2 (i + l1.length) := by
  induction l1 generalizing i with
  | nil => simp
  | cons a l ih =>
    rw [List.cons_append, List.findIdx?_cons, h a (by simp), if_neg (by simp)]
    rw [ih (fun b hb => h b (List.mem_cons_of_mem _ hb)) (i + 1)]
    congr 1
    simp
    omega

/-- `findIdx?` returns the index of the head of the suffix past a
predicate-false prefix. -/
lemma findIdx_first {α : Type} (p : α → Bool) (l1 : List α) (a : α) (l2 : List α)
    (h1 : ∀ b ∈ l1, p b = false) (ha : p a = true) :
    List.findIdx? p (l1 ++ a :: l2) 0 = some l1.length := by
  rw [findIdx_skip p l1 _ h1 0, List.findIdx?_cons, ha, if_pos rfl]
  congr 1
  omega

/-- A successful `findIdx?` points at an element satisfying the predicate. -/
lemma findIdx_mem {α : Type} (p : α → Bool) (l : List α) :
    ∀ i j, List.findIdx? p l i = some j →
      i ≤ j ∧ ∃ a, l[j - i]? = some a ∧ p a = true := by
  induction l with
  | nil => intro i j h; simp [List.findIdx?] at h
  | cons a l ih =>
    intro i j h
    rw [List.findIdx?_cons] at h
    by_cases hpa : p a = true
    · rw [if_pos hpa] at h
      cases h
      exact ⟨le_refl _, a, by simp, hpa⟩
    · rw [if_neg hpa] at h
      obtain ⟨hij, b, hb, hpb⟩ := ih (i + 1) j h
      refine ⟨by omega, b, ?_, hpb⟩
      have : j - i = (j - (i + 1)) + 1 := by omega
      rw [this]
      simpa using hb

/-- The blueprint `processStageBText` returns always carries the
pipeline's own size. -/
lemma processStageBText_size (li : String) (size : LegoBuildSize) (t : String) :
    (processStageBText li size t).size = size := by
  unfold processStageBText
  cases jsonParse (cleanJsonString t) with
  | none => rfl
  | some j =>
    by_cases h : stageBRejects j
    · simp [h, mkFallback]
    · simp [h, mkSuccessBlueprint]

/-- The blueprint `stageBOutcome` returns always carries the pipeline's
own size. -/
lemma stageBOutcome_size (r : GenResponse) (li : String) (size : LegoBuildSize) :
    (stageBOutcome r li size).size = size := by
  unfold stageBOutcome
  cases stageBTextPayload r with
  | none => rfl
  | some t => exact processStageBText_size li size t

/-- `enhanceBlueprint` keeps the blueprint's size. -/
lemma enhanceBlueprint_size (bp : LegoBlueprint) (vps : List ValidatedLegoPart) :
    (enhanceBlueprint bp vps).size = bp.size := rfl

/-- Once Stage A has extracted inline image data, `generateLegoBlueprint`
resolves with the Stage-B outcome for the data URI built from it. -/
lemma generate_stageA_ok (b64 mime : String) (size : LegoBuildSize)
    (r1 r2 : GenResponse) (ip : RespPart) (idata : InlineData)
    (hip : findImagePart r1.parts = some ip) (hdata : ip.inlineData = some idata) :
    generateLegoBlueprint true b64 mime size r1 r2 =
      ([("Generating ") ++ sizeLabel size ++ (" LEGO version..."),
        ("Analyzing LEGO image for parts...")],
       .ok (stageBOutcome r2 (mkImageData idata) size)) := by
  unfold generateLegoBlueprint
  rw [hip]
  simp only [Bool.not_true, Bool.false_eq_true, if_false, hdata]
  unfold stageBOutcome stageBTextPayload
  cases htp : findTextPart r2.parts with
  | none => rfl
  | some tp =>
    cases htx : tp.text with
    | none => simp [htx]
    | some t =>
      by_cases ht : t = ("")
      · simp [htx, ht]
      · simp [htx, ht]

/-- Once Stage A has extracted inline image data, `resizeLegoBlueprint`
resolves with the Stage-B outcome for the data URI built from it. -/
lemma resize_stageA_ok (b64 mime : String) (size : LegoBuildSize)
    (r1 r2 : GenResponse) (ip : RespPart) (idata : InlineData)
    (hip : findImagePart r1.parts = some ip) (hdata : ip.inlineData = some idata) :
    resizeLegoBlueprint true b64 mime size r1 r2 =
      ([("Generating ") ++ sizeLabel size ++ (" version..."),
        ("Analyzing new image for parts...")],
       .ok (stageBOutcome r2 (mkImageData idata) size)) := by
  unfold resizeLegoBlueprint
  rw [hip]
  simp only [Bool.not_true, Bool.false_eq_true, if_false, hdata]
  unfold stageBOutcome stageBTextPayload
  cases htp : findTextPart r2.parts with
  | none => rfl
  | some tp =>
    cases htx : tp.text with
    | none => simp [htx]
    | some t =>
      by_cases ht : t = ("")
      · simp [htx, ht]
      · simp [htx, ht]

/-- When Stage A finds no part with inline data, both pipeline functions
reject their promise. -/
lemma stageA_missing_image (b64 mime : String) (size : LegoBuildSize)
    (r1 r2 : GenResponse) (hip : findImagePart r1.parts = none) :
    (generateLegoBlueprint true b64 mime size r1 r2).2 =
      .error ("AI failed to generate a LEGO image. Please try a different image.") ∧
    (resizeLegoBlueprint true b64 mime size r1 r2).2 =
      .error (("AI failed to generate the ") ++ sizeLabel size ++ (" LEGO image.")) := by
  unfold generateLegoBlueprint resizeLegoBlueprint
  rw [hip]
  simp

/-- A blueprint successfully resolved by `resizeLegoBlueprint` carries the
requested target size. -/
lemma resize_ok_size (apiKeySet : Bool) (b64 mime : String)
    (targetSize : LegoBuildSize) (r1 r2 : GenResponse) (bp : LegoBlueprint)
    (h : (resizeLegoBlueprint apiKeySet b64 mime targetSize r1 r2).2 = .ok bp) :
    bp.size = targetSize := by
  cases apiKeySet with
  | false => simp [resizeLegoBlueprint] at h
  | true =>
    cases hip : findImagePart r1.parts with
    | none =>
      rw [(stageA_missing_image b64 mime targetSize r1 r2 hip).2] at h
      simp at h
    | some ip =>
      cases hdata : ip.inlineData with
      | none =>
        unfold resizeLegoBlueprint at h
        rw [hip] at h
        simp [hdata] at h
      | some idata =>
        rw [resize_stageA_ok b64 mime targetSize r1 r2 ip idata hip hdata] at h
        cases h
        exact stageBOutcome_size r2 (mkImageData idata) targetSize

/-- The exact conditions under which Stage-B processing degrades to the
fallback: no truthy textual payload, or the repaired substring does not
parse, or the parsed value fails the basic validation (`partsList` missing
or not an array, or `title` falsy). -/
def stageBBad (r : GenResponse) : Prop :=
  stageBTextPayload r = none ∨
  ∃ t, stageBTextPayload r = some t ∧
    (jsonParse (cleanJsonString t) = none ∨
     ∃ j, jsonParse (cleanJsonString t) = some j ∧ stageBRejects j = true)

/-- Under any of the degraded conditions the Stage-B outcome is the
fallback blueprint. -/
lemma stageBBad_fallback (r : GenResponse) (li : String) (size : LegoBuildSize)
    (h : stageBBad r) : stageBOutcome r li size = mkFallback li size := by
  unfold stageBOutcome
  rcases h with h | ⟨t, ht, h⟩
  · rw [h]
  · rw [ht]
    show processStageBText li size t = mkFallback li size
    unfold processStageBText
    rcases h with h | ⟨j, hj, hrej⟩
    · rw [h]
    · rw [hj]
      show (if stageBRejects j = true then mkFallback li size
        else mkSuccessBlueprint j li size) = mkFallback li size
      rw [if_pos hrej]

/-! ## Claim theorems -/

/-- Claim C1 (amended).  For every pipeline run in which Stage A succeeds:
if Stage B returns no (truthy) textual payload, or the extracted substring
fails to parse, or the parsed result lacks a `partsList` **array** or a
truthy `title`, then both `generateLegoBlueprint` and
`resizeLegoBlueprint` resolve — without throwing — with the fixed
fallback blueprint (canned title, description and generic parts list)
whose `legoImageData` is Stage A's output data URI and whose `size` is the
requested size.  (Amendment: an *empty* `partsList` array with a title is
accepted as-is, not replaced by the fallback — the source only checks
`Array.isArray`, not non-emptiness.) -/
theorem stageB_degraded_returns_fallback (b64 mime : String)
    (size : LegoBuildSize) (r1 r2 : GenResponse) (ip : RespPart)
    (idata : InlineData)
    (hip : findImagePart r1.parts = some ip)
    (hdata : ip.inlineData = some idata)
    (hbad : stageBBad r2) :
    (generateLegoBlueprint true b64 mime size r1 r2).2 =
      .ok (mkFallback (mkImageData idata) size) ∧
    (resizeLegoBlueprint true b64 mime size r1 r2).2 =
      .ok (mkFallback (mkImageData idata) size) ∧
    (mkFallback (mkImageData idata) size).legoImageData = mkImageData idata ∧
    (mkFallback (mkImageData idata) size).size = size ∧
    (mkFallback (mkImageData idata) size).title =
      some (.str ("My Custom Brick Model")) ∧
    (mkFallback (mkImageData idata) size).partsList = some fallbackPartsJson := by
  have hfb := stageBBad_fallback r2 (mkImageData idata) size hbad
  refine ⟨?_, ?_, rfl, rfl, rfl, rfl⟩
  · rw [generate_stageA_ok b64 mime size r1 r2 ip idata hip hdata]
    rw [hfb]
  · rw [resize_stageA_ok b64 mime size r1 r2 ip idata hip hdata]
    rw [hfb]

/-- Witness for C1: Stage A yields an image, Stage B returns prose with no
JSON object; the run resolves with the fallback blueprint carrying Stage
A's data URI and the requested size. -/
theorem stageB_degraded_returns_fallback_witness :
    (generateLegoBlueprint true ("b") ("image/png") .Medium
        ⟨[{ inlineData := some ⟨("IMG"), ("image/png")⟩, text := none }]⟩
        ⟨[{ inlineData := none, text := some ("alas, no parts today") }]⟩).2 =
      .ok (mkFallback ("data:image/png;base64,IMG") .Medium) :=
  (stageB_degraded_returns_fallback ("b") ("image/png") .Medium
    ⟨[{ inlineData := some ⟨("IMG"), ("image/png")⟩, text := none }]⟩
    ⟨[{ inlineData := none, text := some ("alas, no parts today") }]⟩
    { inlineData := some ⟨("IMG"), ("image/png")⟩, text := none }
    ⟨("IMG"), ("image/png")⟩ rfl rfl
    (Or.inr ⟨("alas, no parts today"), rfl,
      Or.inr ⟨Json.obj [], rfl, rfl⟩⟩)).1

/-- Counterexample for C1 as stated: a Stage-B payload whose parsed result
has an **empty** `partsList` array (so it "lacks a non-empty parts list")
together with a title is accepted by the pipeline: the returned blueprint
keeps the payload's empty parts list and has no `totalPieces`, whereas the
fixed fallback blueprint has `totalPieces` set — the fallback is *not*
returned. -/
theorem stageB_empty_partsList_accepted :
    ((generateLegoBlueprint true ("b") ("image/png") .Medium
        ⟨[{ inlineData := some ⟨("IMG"), ("image/png")⟩, text := none }]⟩
        ⟨[{ inlineData := none,
            text := some ("\x7b\"title\":\"T\",\"partsList\":[]\x7d") }]⟩).2.toOption.map
      (fun bp => (bp.partsList, bp.totalPieces.isNone))) =
      some (some (Json.arr []), true) ∧
    (mkFallback ("data:image/png;base64,IMG") .Medium).totalPieces.isNone = false :=
  ⟨rfl, rfl⟩

/-- Claim C2.  If the Stage-A response contains no inline image payload,
both pipeline entry points reject their promise with an error — no
blueprint, in particular no fallback blueprint, is produced. -/
theorem stageA_no_image_fatal (b64 mime : String) (size : LegoBuildSize)
    (r1 r2 : GenResponse)
    (h : ∀ p ∈ r1.parts, p.inlineData = none) :
    (generateLegoBlueprint true b64 mime size r1 r2).2 =
      .error ("AI failed to generate a LEGO image. Please try a different image.") ∧
    (resizeLegoBlueprint true b64 mime size r1 r2).2 =
      .error (("AI failed to generate the ") ++ sizeLabel size ++ (" LEGO image.")) := by
  have hip : findImagePart r1.parts = none := by
    rw [findImagePart, List.find?_eq_none]
    intro p hp
    simp [h p hp]
  exact stageA_missing_image b64 mime size r1 r2 hip

/-- Witness for C2: a Stage-A response carrying only text parts makes both
entry points throw. -/
theorem stageA_no_image_fatal_witness :
    (generateLegoBlueprint true ("b") ("image/png") .Large
        ⟨[{ inlineData := none, text := some ("here is your model") }]⟩ ⟨[]⟩).2 =
      .error ("AI failed to generate a LEGO image. Please try a different image.") ∧
    (resizeLegoBlueprint true ("b") ("image/png") .Large
        ⟨[{ inlineData := none, text := some ("here is your model") }]⟩ ⟨[]⟩).2 =
      .error (("AI failed to generate the ") ++ sizeLabel .Large ++ (" LEGO image.")) :=
  stageA_no_image_fatal ("b") ("image/png") .Large
    ⟨[{ inlineData := none, text := some ("here is your model") }]⟩ ⟨[]⟩
    (by decide)

/-- `cleanJsonChars` rewritten by the two index lookups when both braces
are found. -/
lemma cleanJsonChars_eq (cs : List Char) (f rl : Nat)
    (hf : cs.findIdx? (fun c => c = '{') = some f)
    (hl : cs.reverse.findIdx? (fun c => c = '}') = some rl) :
    cleanJsonChars cs =
      if cs.length - 1 - rl < f then [ '{', '}' ]
      else (cs.take (cs.length - 1 - rl + 1)).drop f := by
  unfold cleanJsonChars
  rw [hf, hl]

/-- `cleanJsonChars` yields `"{}"` when there is no opening brace. -/
lemma cleanJsonChars_no_open (cs : List Char)
    (hf : cs.findIdx? (fun c => c = '{') = none) :
    cleanJsonChars cs = [ '{', '}' ] := by
  unfold cleanJsonChars
  rw [hf]

/-- `cleanJsonChars` yields `"{}"` when there is no closing brace. -/
lemma cleanJsonChars_no_close (cs : List Char)
    (hl : cs.reverse.findIdx? (fun c => c = '}') = none) :
    cleanJsonChars cs = [ '{', '}' ] := by
  unfold cleanJsonChars
  rw [hl]
  cases cs.findIdx? (fun c => c = '{') <;> rfl

/-- Claim C3.  First half: on any input that decomposes as `pre ++ mid ++
post` where `pre` has no `'{'`, `post` has no `'}'`, and `mid` starts with
`'{'` and ends with `'}'` (so `mid` is exactly the substring from the
first `'{'` to the last `'}'`), `cleanJsonString`'s character-level body
returns `mid`.  Second half: on any input with no well-formed bracket
pair (no index pair `i ≤ j` holding `'{'` at `i` and `'}'` at `j`), the
result is the string `"{}"`, and feeding such an input through the
Stage-B processing produces the fallback blueprint. -/
theorem cleanJson_extracts_first_to_last :
    (∀ pre mid post : List Char,
      ('{') ∉ pre → ('}') ∉ post →
      mid.head? = some '{' → mid.getLast? = some '}' →
      cleanJsonChars (pre ++ mid ++ post) = mid) ∧
    (∀ (cs : List Char) (img : String) (size : LegoBuildSize),
      (∀ i, i < cs.length → ∀ j, j < cs.length → i ≤ j →
        ¬(cs[i]? = some '{' ∧ cs[j]? = some '}')) →
      cleanJsonChars cs = [ '{', '}' ] ∧
      processStageBText img size (String.mk cs) = mkFallback img size) := by
  constructor
  · intro pre mid post hpre hpost hhead hlast
    obtain ⟨m, ms, rfl⟩ : ∃ m ms, mid = m :: ms := by
      cases mid with
      | nil => simp at hhead
      | cons m ms => exact ⟨m, ms, rfl⟩
    have hm : m = '{' := by simpa using hhead
    subst hm
    have hp1 : ∀ b ∈ pre, (fun c => decide (c = '{')) b = false := by
      intro b hb
      simp only [decide_eq_false_iff_not]
      intro hbe
      exact hpre (hbe ▸ hb)
    have hf : (pre ++ '{' :: ms ++ post).findIdx? (fun c => c = '{') =
        some pre.length := by
      have h0 := findIdx_first (fun c => decide (c = '{')) pre '{' (ms ++ post)
        hp1 (by simp)
      simpa [List.append_assoc] using h0
    obtain ⟨bs, hbs⟩ : ∃ bs, ('{' :: ms).reverse = '}' :: bs := by
      have h1 : ('{' :: ms).reverse.head? = some '}' := by
        rw [List.head?_reverse]
        exact hlast
      cases hrv : ('{' :: ms).reverse with
      | nil => rw [hrv] at h1; simp at h1
      | cons b bs =>
        rw [hrv] at h1
        simp at h1
        exact ⟨bs, by rw [h1]⟩
    have hq1 : ∀ b ∈ post.reverse, (fun c => decide (c = '}')) b = false := by
      intro b hb
      simp only [decide_eq_false_iff_not]
      intro hbe
      exact hpost (hbe ▸ (List.mem_reverse.mp hb))
    have hl : (pre ++ '{' :: ms ++ post).reverse.findIdx? (fun c => c = '}') =
        some post.length := by
      have harr : (pre ++ '{' :: ms ++ post).reverse =
          post.reverse ++ '}' :: (bs ++ pre.reverse) := by
        rw [show pre ++ '{' :: ms ++ post = (pre ++ '{' :: ms) ++ post from by simp]
        rw [List.reverse_append, List.reverse_append, hbs]
        exact rfl
      rw [harr]
      have h0 := findIdx_first (fun c => decide (c = '}')) post.reverse '}'
        (bs ++ pre.reverse) hq1 (by simp)
      rw [h0, List.length_reverse]
    rw [cleanJsonChars_eq _ _ _ hf hl]
    have hlen : (pre ++ '{' :: ms ++ post).length =
        pre.length + (ms.length + 1) + post.length := by
      simp only [List.length_append, List.length_cons]
      try omega
    rw [hlen, if_neg (by omega)]
    have hidx : pre.length + (ms.length + 1) + post.length - 1 - post.length + 1 =
        (pre ++ '{' :: ms).length := by
      simp only [List.length_append, List.length_cons]
      try omega
    rw [hidx,
      show pre ++ '{' :: ms ++ post = (pre ++ '{' :: ms) ++ post by simp,
      List.take_left, List.drop_left]
  · intro cs img size h
    have hc : cleanJsonChars cs = [ '{', '}' ] := by
      cases hf : cs.findIdx? (fun c => c = '{') with
      | none => exact cleanJsonChars_no_open cs hf
      | some f =>
        cases hl : cs.reverse.findIdx? (fun c => c = '}') with
        | none => exact cleanJsonChars_no_close cs hl
        | some rl =>
          obtain ⟨-, a, ha, hpa⟩ := findIdx_mem _ cs 0 f hf
          rw [Nat.sub_zero] at ha
          have haeq : a = '{' := by simpa using hpa
          subst haeq
          obtain ⟨-, b, hb, hpb⟩ := findIdx_mem _ cs.reverse 0 rl hl
          rw [Nat.sub_zero] at hb
          have hbeq : b = '}' := by simpa using hpb
          subst hbeq
          have hflt : f < cs.length := (List.getElem?_eq_some.mp ha).1
          have hrllt : rl < cs.length := by
            have := (List.getElem?_eq_some.mp hb).1
            simpa using this
          rw [List.getElem?_reverse (by simpa using hrllt)] at hb
          have hcond : cs.length - 1 - rl < f := by
            by_contra hge
            push_neg at hge
            exact h f hflt (cs.length - 1 - rl) (by omega) hge ⟨ha, hb⟩
          rw [cleanJsonChars_eq _ _ _ hf hl, if_pos hcond]
    refine ⟨hc, ?_⟩
    have hclean : cleanJsonString (String.mk cs) = String.mk [ '{', '}' ] := by
      unfold cleanJsonString
      rw [show (String.mk cs).toList = cs from rfl, hc]
    unfold processStageBText
    rw [hclean]
    rfl

/-- Witness for C3: a concrete extraction (`a{x}b` yields `{x}`) and a
concrete brace-free input (`no`) that is repaired to `"{}"` and leads to
the fallback blueprint. -/
theorem cleanJson_extracts_first_to_last_witness :
    cleanJsonChars ([ 'a' ] ++ [ '{', 'x', '}' ] ++ [ 'b' ]) = [ '{', 'x', '}' ] ∧
    cleanJsonChars [ 'n', 'o' ] = [ '{', '}' ] ∧
    processStageBText ("img") .Medium (String.mk [ 'n', 'o' ]) =
      mkFallback ("img") .Medium := by
  refine ⟨cleanJson_extracts_first_to_last.1 [ 'a' ] [ '{', 'x', '}' ] [ 'b' ]
    (by decide) (by decide) (by decide) (by decide), ?_, ?_⟩
  · exact (cleanJson_extracts_first_to_last.2 [ 'n', 'o' ] ("img") .Medium
      (by decide)).1
  · exact (cleanJson_extracts_first_to_last.2 [ 'n', 'o' ] ("img") .Medium
      (by decide)).2

/-- `validateOnePart` passes `quantity` and `pieceName` (and the other
input fields) through unchanged whatever the authority answers. -/
lemma validateOnePart_passthrough (lookup : LegoPart → LookupOutcome)
    (p : LegoPart) :
    (validateOnePart lookup p).quantity = p.quantity ∧
    (validateOnePart lookup p).pieceName = p.pieceName := by
  unfold validateOnePart
  cases lookup p <;> exact ⟨rfl, rfl⟩

/-- Claim C4 (amended).  After validation completes, the enhanced
blueprint's `realTotalCost` is the sum over its `validatedParts` of
`realPrice * quantity` (the `reduce` in `handleConvertClick` /
`handleResize`).  Before validation, the pipeline itself never sets
`realTotalCost`: the fallback blueprint leaves it undefined, and on the
success path it is exactly whatever `realTotalCost` field the parsed
Stage-B payload itself carried (the spread `{...parsedJson, ...}` passes
such a field through), i.e. undefined whenever the payload has no such
field. -/
theorem realTotalCost_is_validated_sum (bp : LegoBlueprint)
    (vps vl : List ValidatedLegoPart)
    (h : (enhanceBlueprint bp vps).validatedParts = some vl) :
    (enhanceBlueprint bp vps).realTotalCost = some (.num (sumRealCost vl)) ∧
    (∀ img size, (mkFallback img size).realTotalCost = none) ∧
    (∀ j img size, (mkSuccessBlueprint j img size).realTotalCost =
      jsGetField j ("realTotalCost")) := by
  refine ⟨?_, fun img size => rfl, fun j img size => rfl⟩
  have hvl : vl = vps := by
    have h2 : some vps = some vl := h
    exact (Option.some.inj h2).symm
  rw [hvl]
  rfl

/-- Witness for C4: a concrete enhancement. -/
theorem realTotalCost_is_validated_sum_witness :
    (enhanceBlueprint (mkFallback ("i") .Medium)
        [{ pieceId := ("3001"), pieceName := ("2x4 Brick"), color := ("Red"),
           quantity := 2, estimatedPrice := 1 / 10, realPrice := 3 / 10,
           availability := .Available, brickLinkUrl := ("u"),
           isAlternative := none, notes := none }]).realTotalCost =
      some (.num (sumRealCost
        [{ pieceId := ("3001"), pieceName := ("2x4 Brick"), color := ("Red"),
           quantity := 2, estimatedPrice := 1 / 10, realPrice := 3 / 10,
           availability := .Available, brickLinkUrl := ("u"),
           isAlternative := none, notes := none }])) :=
  (realTotalCost_is_validated_sum (mkFallback ("i") .Medium)
    [{ pieceId := ("3001"), pieceName := ("2x4 Brick"), color := ("Red"),
       quantity := 2, estimatedPrice := 1 / 10, realPrice := 3 / 10,
       availability := .Available, brickLinkUrl := ("u"),
       isAlternative := none, notes := none }]
    [{ pieceId := ("3001"), pieceName := ("2x4 Brick"), color := ("Red"),
       quantity := 2, estimatedPrice := 1 / 10, realPrice := 3 / 10,
       availability := .Available, brickLinkUrl := ("u"),
       isAlternative := none, notes := none }] rfl).1

/-- Counterexample for C4 as stated: a pipeline run whose Stage-B payload
itself carries a `realTotalCost` field.  The blueprint returned by
`generateLegoBlueprint` — validation has not yet run: `validatedParts` is
still undefined — already has `realTotalCost` defined (to the echoed
value `123`), contradicting "before validation completes, `realTotalCost`
is undefined". -/
theorem realTotalCost_echoed_before_validation :
    ((generateLegoBlueprint true ("b") ("image/png") .Medium
        ⟨[{ inlineData := some ⟨("IMG"), ("image/png")⟩, text := none }]⟩
        ⟨[{ inlineData := none,
            text := some ("\x7b\"title\":\"T\",\"partsList\":[1],\"realTotalCost\":123\x7d") }]⟩).2.toOption.map
      (fun bp => (bp.realTotalCost, bp.validatedParts.isNone))) =
      some (some (Json.num 123), true) := rfl

/-- Claim C5.  For every authority behaviour and every input parts list,
`validateAndPriceParts` returns exactly one `ValidatedLegoPart` per input
`LegoPart`, in the same order, with `quantity` and `pieceName` passed
through unchanged.  (Spec-modelled: `bricklinkService.ts` is not among
the provided sources.) -/
theorem validate_preserves_shape (lookup : LegoPart → LookupOutcome)
    (parts : List LegoPart) :
    (validateAndPriceParts lookup parts).length = parts.length ∧
    (validateAndPriceParts lookup parts).map (fun vp => vp.quantity) =
      parts.map (fun p => p.quantity) ∧
    (validateAndPriceParts lookup parts).map (fun vp => vp.pieceName) =
      parts.map (fun p => p.pieceName) := by
  refine ⟨by simp [validateAndPriceParts], ?_, ?_⟩
  · unfold validateAndPriceParts
    rw [List.map_map]
    exact List.map_congr_left
      (fun p _ => (validateOnePart_passthrough lookup p).1)
  · unfold validateAndPriceParts
    rw [List.map_map]
    exact List.map_congr_left
      (fun p _ => (validateOnePart_passthrough lookup p).2)

/-- Claim C6.  On every successful pipeline run (Stage A produced an
image, Stage B text parsed and passed validation), the returned blueprint
is the spread with `legoImageData` and `size` overridden by the
pipeline's own values — Stage A's data URI and the requested size — for
*every* parsed payload `j`, in particular one echoing its own
`legoImageData`/`size` fields. -/
theorem success_overrides_image_and_size (b64 mime : String)
    (size : LegoBuildSize) (r1 r2 : GenResponse) (ip : RespPart)
    (idata : InlineData) (t : String) (j : Json)
    (hip : findImagePart r1.parts = some ip)
    (hdata : ip.inlineData = some idata)
    (ht : stageBTextPayload r2 = some t)
    (hj : jsonParse (cleanJsonString t) = some j)
    (hok : stageBRejects j = false) :
    (generateLegoBlueprint true b64 mime size r1 r2).2 =
      .ok (mkSuccessBlueprint j (mkImageData idata) size) ∧
    (resizeLegoBlueprint true b64 mime size r1 r2).2 =
      .ok (mkSuccessBlueprint j (mkImageData idata) size) ∧
    (mkSuccessBlueprint j (mkImageData idata) size).legoImageData =
      mkImageData idata ∧
    (mkSuccessBlueprint j (mkImageData idata) size).size = size := by
  have hout : stageBOutcome r2 (mkImageData idata) size =
      mkSuccessBlueprint j (mkImageData idata) size := by
    unfold stageBOutcome
    rw [ht]
    show processStageBText (mkImageData idata) size t = _
    unfold processStageBText
    rw [hj]
    show (if stageBRejects j = true then mkFallback (mkImageData idata) size
      else mkSuccessBlueprint j (mkImageData idata) size) = _
    rw [hok]
    simp
  refine ⟨?_, ?_, rfl, rfl⟩
  · rw [generate_stageA_ok b64 mime size r1 r2 ip idata hip hdata, hout]
  · rw [resize_stageA_ok b64 mime size r1 r2 ip idata hip hdata, hout]

/-- Witness for C6: the Stage-B payload echoes stale `legoImageData` and
`size` fields; the returned blueprint nevertheless carries Stage A's data
URI and the requested `Medium` size. -/
theorem success_overrides_image_and_size_witness :
    (generateLegoBlueprint true ("b") ("image/png") .Medium
        ⟨[{ inlineData := some ⟨("IMG"), ("image/png")⟩, text := none }]⟩
        ⟨[{ inlineData := none,
            text := some ("\x7b\"title\":\"T\",\"partsList\":[1],\"legoImageData\":\"stale\",\"size\":\"Micro\"\x7d") }]⟩).2 =
      .ok (mkSuccessBlueprint
        (.obj [ (("title"), .str ("T")), (("partsList"), .arr [.num 1]),
                (("legoImageData"), .str ("stale")), (("size"), .str ("Micro")) ])
        ("data:image/png;base64,IMG") .Medium) ∧
    (mkSuccessBlueprint
        (.obj [ (("title"), .str ("T")), (("partsList"), .arr [.num 1]),
                (("legoImageData"), .str ("stale")), (("size"), .str ("Micro")) ])
        ("data:image/png;base64,IMG") .Medium).legoImageData =
      ("data:image/png;base64,IMG") ∧
    (mkSuccessBlueprint
        (.obj [ (("title"), .str ("T")), (("partsList"), .arr [.num 1]),
                (("legoImageData"), .str ("stale")), (("size"), .str ("Micro")) ])
        ("data:image/png;base64,IMG") .Medium).size = .Medium := by
  have h := success_overrides_image_and_size ("b") ("image/png") .Medium
    ⟨[{ inlineData := some ⟨("IMG"), ("image/png")⟩, text := none }]⟩
    ⟨[{ inlineData := none,
        text := some ("\x7b\"title\":\"T\",\"partsList\":[1],\"legoImageData\":\"stale\",\"size\":\"Micro\"\x7d") }]⟩
    { inlineData := some ⟨("IMG"), ("image/png")⟩, text := none }
    ⟨("IMG"), ("image/png")⟩
    ("\x7b\"title\":\"T\",\"partsList\":[1],\"legoImageData\":\"stale\",\"size\":\"Micro\"\x7d")
    (.obj [ (("title"), .str ("T")), (("partsList"), .arr [.num 1]),
            (("legoImageData"), .str ("stale")), (("size"), .str ("Micro")) ])
    rfl rfl rfl rfl rfl
  exact ⟨h.1, h.2.2.1, h.2.2.2⟩

/-- Claim C7 (amended).  For every key state, image payload, mime type,
target size and pair of service responses, `generateLegoBlueprint` and
`resizeLegoBlueprint` return the same blueprint and fail under the same
conditions (equal promise outcomes up to the error-message text) — but
they are not literally behaviourally identical: the progress messages
(and error messages) they emit differ in wording. -/
theorem generate_resize_same_outcome (apiKeySet : Bool) (b64 mime : String)
    (size : LegoBuildSize) (r1 r2 : GenResponse) :
    (generateLegoBlueprint apiKeySet b64 mime size r1 r2).2.toOption =
      (resizeLegoBlueprint apiKeySet b64 mime size r1 r2).2.toOption := by
  cases apiKeySet with
  | false => rfl
  | true =>
    cases hip : findImagePart r1.parts with
    | none =>
      have h := stageA_missing_image b64 mime size r1 r2 hip
      rw [h.1, h.2]
      rfl
    | some ip =>
      cases hdata : ip.inlineData with
      | none =>
        unfold generateLegoBlueprint resizeLegoBlueprint
        rw [hip]
        simp [hdata]
        rfl
      | some idata =>
        rw [generate_stageA_ok b64 mime size r1 r2 ip idata hip hdata,
          resize_stageA_ok b64 mime size r1 r2 ip idata hip hdata]

/-- Counterexample for C7 as stated: at a concrete input the two entry
points push different progress messages into the caller-supplied sink
("Generating Medium LEGO version..." / "Analyzing LEGO image for
parts..." versus "Generating Medium version..." / "Analyzing new image
for parts..."), so they are not behaviourally identical for every
progress sink. -/
theorem generate_resize_different_messages :
    (generateLegoBlueprint true ("b") ("image/png") .Medium
        ⟨[{ inlineData := some ⟨("IMG"), ("image/png")⟩, text := none }]⟩ ⟨[]⟩).1 ≠
      (resizeLegoBlueprint true ("b") ("image/png") .Medium
        ⟨[{ inlineData := some ⟨("IMG"), ("image/png")⟩, text := none }]⟩ ⟨[]⟩).1 := by
  decide

/-- Claim C8.  First half: in every session state reachable through the
UI — where launching a resize requires the "already generated" check
`blueprints.some(bp => bp.size === size)` to be false — the build store
never holds two blueprints of the same size.  Second half: the store's
append itself does not enforce this: applying the resize outcome without
the guard to a store that already holds a `Medium` blueprint produces a
duplicated size. -/
theorem store_at_most_one_per_size :
    (∀ s : SessionState, Reachable s →
      (s.blueprints.map (fun bp => bp.size)).Nodup) ∧
    (applyResizeOutcome
        { blueprints := [mkFallback ("i") .Medium], currentIndex := 0,
          resizeError := none }
        (.ok (mkFallback ("i") .Medium)) []).blueprints.map
      (fun bp => bp.size) = [.Medium, .Medium] ∧
    ¬ ([LegoBuildSize.Medium, .Medium].Nodup) := by
  refine ⟨?_, rfl, by decide⟩
  intro s hs
  induction hs with
  | init bp => simp
  | resize s ts k b64 mime r1 r2 vps h hguard ih =>
    cases hres : (resizeLegoBlueprint k b64 mime ts r1 r2).2 with
    | error e =>
      simpa [applyResizeOutcome, hres] using ih
    | ok nbp =>
      have hsize : nbp.size = ts := resize_ok_size k b64 mime ts r1 r2 nbp hres
      have hnotin : ts ∉ s.blueprints.map (fun bp => bp.size) := by
        intro hmem
        obtain ⟨bp, hbp, hbps⟩ := List.mem_map.mp hmem
        unfold isGenerated at hguard
        have hfalse := List.any_eq_false.mp hguard bp hbp
        simp at hfalse
        exact hfalse hbps
      simp only [applyResizeOutcome, hres]
      rw [List.map_append, List.nodup_append]
      refine ⟨ih, by simp, ?_⟩
      intro a ha hb
      simp [enhanceBlueprint_size, hsize] at hb
      exact hnotin (hb ▸ ha)
  | select s i h hi ih => simpa using ih

/-- Witness for C8: the singleton store of a freshly mounted session has
pairwise-distinct sizes. -/
theorem store_at_most_one_per_size_witness :
    (([mkFallback ("i") .Medium] : List LegoBlueprint).map
      (fun bp => bp.size)).Nodup :=
  store_at_most_one_per_size.1
    { blueprints := [mkFallback ("i") .Medium], currentIndex := 0,
      resizeError := none }
    (Reachable.init (mkFallback ("i") .Medium))

/-- Claim C9.  A resize never mutates the blueprints already in the build
store.  On success, exactly one new blueprint — carrying the requested
size — is appended at the end; every prior entry is unchanged (same value
at the same index) and still selectable (its index is still in range).
On failure, the store and selection are untouched: the state only records
the local error message, so the session stays in its Ready state. -/
theorem resize_preserves_prior_versions (s : SessionState)
    (targetSize : LegoBuildSize) (outcome : Except String LegoBlueprint)
    (vps : List ValidatedLegoPart) (apiKeySet : Bool) (b64 mime : String)
    (r1 r2 : GenResponse)
    (houtcome : outcome =
      (resizeLegoBlueprint apiKeySet b64 mime targetSize r1 r2).2) :
    (∀ nbp, outcome = .ok nbp →
      (applyResizeOutcome s outcome vps).blueprints =
        s.blueprints ++ [enhanceBlueprint nbp vps] ∧
      (enhanceBlueprint nbp vps).size = targetSize ∧
      (∀ i, i < s.blueprints.length →
        (applyResizeOutcome s outcome vps).blueprints[i]? = s.blueprints[i]? ∧
        i < (applyResizeOutcome s outcome vps).blueprints.length)) ∧
    (∀ e, outcome = .error e →
      applyResizeOutcome s outcome vps = { s with resizeError := some e }) := by
  constructor
  · intro nbp hok
    subst hok
    refine ⟨rfl, ?_, ?_⟩
    · rw [enhanceBlueprint_size]
      exact resize_ok_size apiKeySet b64 mime targetSize r1 r2 nbp houtcome.symm
    · intro i hi
      constructor
      · show (s.blueprints ++ [enhanceBlueprint nbp vps])[i]? = s.blueprints[i]?
        rw [List.getElem?_append, if_pos hi]
      · show i < (s.blueprints ++ [enhanceBlueprint nbp vps]).length
        rw [List.length_append]
        omega
  · intro e he
    subst he
    rfl

/-- Witness for C9: a resize of an existing `Medium` session to `Large`
(whose Stage B degrades to the fallback) appends exactly one new entry
after the untouched `Medium` one. -/
theorem resize_preserves_prior_versions_witness :
    (applyResizeOutcome
        { blueprints := [mkFallback ("i") .Medium], currentIndex := 0,
          resizeError := none }
        (resizeLegoBlueprint true ("b") ("m") .Large
          ⟨[{ inlineData := some ⟨("IMG"), ("image/png")⟩, text := none }]⟩
          ⟨[]⟩).2
        []).blueprints =
      [mkFallback ("i") .Medium] ++
        [enhanceBlueprint (mkFallback ("data:image/png;base64,IMG") .Large) []] :=
  ((resize_preserves_prior_versions
      { blueprints := [mkFallback ("i") .Medium], currentIndex := 0,
        resizeError := none }
      .Large
      (resizeLegoBlueprint true ("b") ("m") .Large
        ⟨[{ inlineData := some ⟨("IMG"), ("image/png")⟩, text := none }]⟩
        ⟨[]⟩).2
      [] true ("b") ("m")
      ⟨[{ inlineData := some ⟨("IMG"), ("image/png")⟩, text := none }]⟩
      ⟨[]⟩ rfl).1
    (mkFallback ("data:image/png;base64,IMG") .Large) rfl).1

/-- Claim C10.  After a successful resize, the current-selection index is
the index of the newly appended blueprint (the store length before the
append), so the blueprint now shown is the newly generated version. -/
theorem resize_selects_new_version (s : SessionState)
    (outcome : Except String LegoBlueprint) (vps : List ValidatedLegoPart)
    (nbp : LegoBlueprint) (hok : outcome = .ok nbp) :
    (applyResizeOutcome s outcome vps).currentIndex = s.blueprints.length ∧
    currentBlueprint (applyResizeOutcome s outcome vps) =
      some (enhanceBlueprint nbp vps) := by
  subst hok
  refine ⟨rfl, ?_⟩
  show (s.blueprints ++ [enhanceBlueprint nbp vps])[s.blueprints.length]? =
    some (enhanceBlueprint nbp vps)
  exact List.getElem?_concat_length s.blueprints (enhanceBlueprint nbp vps)

/-- Witness for C10: after a successful resize of a one-entry store the
selection is the new second entry. -/
theorem resize_selects_new_version_witness :
    (applyResizeOutcome
        { blueprints := [mkFallback ("i") .Medium], currentIndex := 0,
          resizeError := none }
        (.ok (mkFallback ("j") .Large)) []).currentIndex = 1 ∧
    currentBlueprint (applyResizeOutcome
        { blueprints := [mkFallback ("i") .Medium], currentIndex := 0,
          resizeError := none }
        (.ok (mkFallback ("j") .Large)) []) =
      some (enhanceBlueprint (mkFallback ("j") .Large) []) :=
  resize_selects_new_version
    { blueprints := [mkFallback ("i") .Medium], currentIndex := 0,
      resizeError := none }
    (.ok (mkFallback ("j") .Large)) [] (mkFallback ("j") .Large) rfl

end ImageToLego
